import Mathlib

/-!
# Verification of the multichain-sdk derivation engine

Shallow embedding of `src/derive.ts` (and the chain tables of `src/chains.ts`,
reproduced in the repository docs): deterministic multi-chain HD key and
address derivation, extended-public-key export, and watch-only address
derivation.

Modelling conventions:

* Machine bytes are `Nat` values (each < 256 where it matters); byte buffers
  are `List Nat`; JS strings are Lean `String`s.
* A thrown JS exception is an `Except.error` carrying a `DError`; the error
  taxonomy (InputError, DerivationError, UnsupportedOperationError,
  XPubParseError, AddressEncodingError) follows the specification's
  classification of the engine's failure causes, since the TypeScript code
  raises plain `Error` objects.
* The secp256k1 curve group generated by `G` is cyclic of order `nOrder`;
  we model it through the discrete-log isomorphism with `ZMod nOrder`,
  i.e. a point is represented by its scalar and `k·G` is `k` itself
  (addition of points is addition of scalars `mod nOrder`).  Everything the
  engine does with points (serialize them, feed them to hashes, add a
  tweak times `G`) factors through this isomorphism.
* External cryptographic primitives (HMAC-SHA512, SHA-256, RIPEMD-160,
  Keccak-256, bech32, Base58Check, the Ripple alphabet codec, the SLIP-0010
  master/child derivation, the ed25519 keypair expansion and the BIP32 path
  parser) are fields of a `Prim` structure: the engine is faithful to the
  *composition* of those primitives, and every theorem is quantified over
  the primitives.  The base58check serialization of a BIP32 extended key is
  modelled by the decoded 78-byte payload (`SerKey`), since the outer
  base58check coat is an injective external codec that the engine never
  inspects.
-/

/-- One byte of a big-endian encoding: `serBE len v` is `v` as `len` bytes. -/
def serBE : Nat → Nat → List Nat
  | 0, _ => []
  | len+1, v => serBE len (v / 256) ++ [v % 256]

/-- 32-byte big-endian serialization (`ser256` of BIP32). -/
def ser256 (v : Nat) : List Nat := serBE 32 v

/-- 4-byte big-endian serialization (`ser32` of BIP32). -/
def ser32 (v : Nat) : List Nat := serBE 4 v

/-- Big-endian reading of (at most four) bytes, for fingerprints. -/
def be4 (l : List Nat) : Nat := l.foldl (fun acc b => acc * 256 + b) 0

/-- UTF-8/ASCII code units of a string (all strings used are ASCII). -/
def asciiBytes (s : String) : List Nat := s.data.map Char.toNat

/-- Lowercase hexadecimal digit for a value < 16. -/
def hexDigit (n : Nat) : Char :=
  if n < 10 then Char.ofNat (48 + n) else Char.ofNat (87 + n)

/-- Lowercase hex characters of a byte list (two digits per byte). -/
def hexChars (bytes : List Nat) : List Char :=
  (bytes.map (fun b => [hexDigit (b / 16), hexDigit (b % 16)])).flatten

/-- Lowercase hex string of a byte list, as `Buffer.toString('hex')`. -/
def hexOfBytes (bytes : List Nat) : String := String.mk (hexChars bytes)

/-- 64-hex-char export of a 32-byte scalar. -/
def hex64 (k : Nat) : String := hexOfBytes (ser256 k)

/-- `hash.slice(-20)`: the last 20 entries of a byte list. -/
def last20 (l : List Nat) : List Nat := l.drop (l.length - 20)

/-- The apostrophe used to mark hardened path segments. -/
def tick : String := String.singleton (Char.ofNat 39)

/-- Render a hardened path segment. -/
def hseg (n : Nat) : String := Nat.repr n ++ tick

/-- The supported chains (`src/types.ts`). -/
inductive Chain where
  | BTC | ETH | BSC | DOGE | LTC | TRX | XRP | SOL
deriving DecidableEq, Repr

/-- Derivation options (`src/types.ts` `DeriveOpts`). -/
structure DeriveOpts where
  account : Option Nat := none
  change : Option Nat := none
  index : Option Nat := none
  customPath : Option String := none
  testnet : Bool := false
  regtest : Bool := false
deriving DecidableEq, Repr

/-- Error taxonomy (spec §7) classifying the exceptions thrown by the code. -/
inductive DError where
  | inputError (msg : String)
  | derivationError (msg : String)
  | unsupportedOperation (msg : String)
  | xpubParse (msg : String)
  | addressEncoding (msg : String)
deriving DecidableEq, Repr

instance {ε α : Type} [DecidableEq ε] [DecidableEq α] : DecidableEq (Except ε α)
  | .error e, .error f =>
    match decEq e f with
    | isTrue h => isTrue (by rw [h])
    | isFalse h => isFalse (fun hh => h (by cases hh; rfl))
  | .error _, .ok _ => isFalse (fun h => Except.noConfusion h)
  | .ok _, .error _ => isFalse (fun h => Except.noConfusion h)
  | .ok a, .ok b =>
    match decEq a b with
    | isTrue h => isTrue (by rw [h])
    | isFalse h => isFalse (fun hh => h (by cases hh; rfl))

/-- A bitcoinjs-lib style network descriptor (version bytes and prefixes). -/
structure Network where
  bip32pub : Nat
  bip32priv : Nat
  bech32 : Option String
  pubKeyHash : Nat
  scriptHash : Nat
  wif : Nat
deriving DecidableEq, Repr

/-- `bitcoin.networks.bitcoin`. -/
def bitcoinMainnet : Network :=
  { bip32pub := 0x0488b21e, bip32priv := 0x0488ade4, bech32 := some "bc",
    pubKeyHash := 0x00, scriptHash := 0x05, wif := 0x80 }

/-- `bitcoin.networks.testnet`. -/
def bitcoinTestnet : Network :=
  { bip32pub := 0x043587cf, bip32priv := 0x04358394, bech32 := some "tb",
    pubKeyHash := 0x6f, scriptHash := 0xc4, wif := 0xef }

/-- `bitcoin.networks.regtest`. -/
def bitcoinRegtest : Network :=
  { bip32pub := 0x043587cf, bip32priv := 0x04358394, bech32 := some "bcrt",
    pubKeyHash := 0x6f, scriptHash := 0xc4, wif := 0xef }

/-- The custom `litecoin` network of `src/derive.ts`. -/
def litecoin : Network :=
  { bip32pub := 0x019da462, bip32priv := 0x019d9cfe, bech32 := some "ltc",
    pubKeyHash := 0x30, scriptHash := 0x32, wif := 0xb0 }

/-- The custom `dogecoin` network of `src/derive.ts`. -/
def dogecoin : Network :=
  { bip32pub := 0x02facafd, bip32priv := 0x02fac398, bech32 := none,
    pubKeyHash := 0x1e, scriptHash := 0x16, wif := 0x9e }

/-- `testnetNetworks.LTC` (spread of `litecoin` with testnet bytes). -/
def ltcTestnet : Network :=
  { litecoin with bech32 := some "tltc", pubKeyHash := 0x6f, scriptHash := 0x3a, wif := 0xef }

/-- `regtestNetworks.LTC`. -/
def ltcRegtest : Network :=
  { litecoin with bech32 := some "rltc", pubKeyHash := 0x6f, scriptHash := 0x3a, wif := 0xef }

/-- `testnetNetworks.DOGE`. -/
def dogeTestnet : Network :=
  { dogecoin with pubKeyHash := 0x71, scriptHash := 0xc4, wif := 0xf1 }

/-- `regtestNetworks.DOGE` (same bytes as testnet). -/
def dogeRegtest : Network :=
  { dogecoin with pubKeyHash := 0x71, scriptHash := 0xc4, wif := 0xf1 }

/-- The external cryptographic primitives consumed (not reimplemented) by the
engine; spec §6.  `hmacSHA512 key msg` returns the two 32-byte halves
`(IL, IR)` read as big-endian naturals. -/
structure Prim where
  hmacSHA512 : List Nat → List Nat → Nat × Nat
  serP : Nat → List Nat
  decompress : List Nat → List Nat
  sha256 : List Nat → List Nat
  ripemd160 : List Nat → List Nat
  keccak256 : List Nat → List Nat
  bech32v0 : String → List Nat → String
  base58check : Nat → List Nat → String
  rippleB58 : List Nat → String
  slip10 : String → String → Nat
  ed25519Pub : Nat → Nat
  base58raw : Nat → String
  parsePath : String → Option (List Nat)

/-- secp256k1 group order (curve parameter of tiny-secp256k1). -/
def nOrder : Nat :=
  0xfffffffffffffffffffffffffffffffebaaedce6af48a03bbfd25e8cd0364141

/-- Hardened-offset base: indices at or above `2^31` are hardened. -/
def hardBase : Nat := 2 ^ 31

/-- Retry budget for the BIP32 invalid-key index-skip loop (the loop is
practically unreachable; any fixed positive budget models it). -/
def FUEL : Nat := 8

/-- `RIPEMD160(SHA256(·))`. -/
def hash160 (p : Prim) (l : List Nat) : List Nat := p.ripemd160 (p.sha256 l)

/-- Modelled from the spec (§4.2): BIP32 private child-key derivation of the
external `bip32` library, with the deterministic index-skip retry.  In the
scalar model the public key of `k` is `k` itself, so the non-hardened data
is `serP k ‖ ser32 i` and the hardened data is `0x00 ‖ ser256 k ‖ ser32 i`.
Returns `(child scalar, child chain code, index actually used)`. -/
def ckdPriv (p : Prim) (k cc : Nat) : Nat → Nat → Except DError (Nat × Nat × Nat)
  | _, 0 => .error (.derivationError "child derivation failed")
  | i, fuel+1 =>
    let data := if hardBase ≤ i then (0 :: ser256 k) ++ ser32 i else p.serP k ++ ser32 i
    let hm := p.hmacSHA512 (ser256 cc) data
    let child := (hm.1 + k) % nOrder
    if nOrder ≤ hm.1 ∨ child = 0 then ckdPriv p k cc (i+1) fuel
    else .ok (child, hm.2, i)

/-- Modelled from the spec (§4.2): BIP32 public-only child derivation
(`childPublic = parentPublic + IL·G`, non-hardened only); in the scalar
model point addition is addition `mod nOrder`. -/
def ckdPub (p : Prim) (kpub cc : Nat) : Nat → Nat → Except DError (Nat × Nat × Nat)
  | _, 0 => .error (.derivationError "child derivation failed")
  | i, fuel+1 =>
    if hardBase ≤ i then .error (.derivationError "cannot derive hardened child from public key")
    else
      let hm := p.hmacSHA512 (ser256 cc) (p.serP kpub ++ ser32 i)
      let child := (hm.1 + kpub) % nOrder
      if nOrder ≤ hm.1 ∨ child = 0 then ckdPub p kpub cc (i+1) fuel
      else .ok (child, hm.2, i)

/-- An in-memory BIP32 node of the external `bip32` library.  `privKey` is
`none` for a neutered (public-only) node; in the scalar model `pubKey`
equals the private scalar whenever the latter is present. -/
structure ExtNode where
  privKey : Option Nat
  pubKey : Nat
  chainCode : Nat
  depth : Nat
  parentFp : Nat
  childIndex : Nat
  network : Network
deriving DecidableEq, Repr

/-- Fingerprint of a node: first four bytes of `hash160(serP(pub))`. -/
def fpOf (p : Prim) (node : ExtNode) : Nat :=
  be4 ((hash160 p (p.serP node.pubKey)).take 4)

/-- Key string for the BIP32 master HMAC. -/
def masterKeyBytes : List Nat := asciiBytes "Bitcoin seed"

/-- Modelled from the spec (§4.2, §7): `bip32.fromSeed` of the external
`bip32` library — master node from HMAC-SHA512("Bitcoin seed", seed); a
seed shorter than 16 bytes is a fatal InputError. -/
def fromSeed (p : Prim) (seed : List Nat) (network : Network) : Except DError ExtNode :=
  if seed.length < 16 then .error (.inputError "Seed should be at least 128 bits")
  else
    let hm := p.hmacSHA512 masterKeyBytes seed
    if nOrder ≤ hm.1 ∨ hm.1 = 0 then .error (.derivationError "invalid master key")
    else .ok { privKey := some hm.1, pubKey := hm.1, chainCode := hm.2,
               depth := 0, parentFp := 0, childIndex := 0, network }

/-- `node.derive(i)` of the external `bip32` library: private derivation for
private-capable nodes, public-only derivation for neutered ones. -/
def nodeDerive (p : Prim) (node : ExtNode) (i : Nat) : Except DError ExtNode :=
  match node.privKey with
  | some k =>
    match ckdPriv p k node.chainCode i FUEL with
    | .error e => .error e
    | .ok t => .ok { privKey := some t.1, pubKey := t.1, chainCode := t.2.1,
                     depth := node.depth + 1, parentFp := fpOf p node,
                     childIndex := t.2.2, network := node.network }
  | none =>
    match ckdPub p node.pubKey node.chainCode i FUEL with
    | .error e => .error e
    | .ok t => .ok { privKey := none, pubKey := t.1, chainCode := t.2.1,
                     depth := node.depth + 1, parentFp := fpOf p node,
                     childIndex := t.2.2, network := node.network }

/-- `node.derivePath` over an already-parsed list of segment indices
(hardened segments carry the `hardBase` offset). -/
def derivePathSegs (p : Prim) (node : ExtNode) : List Nat → Except DError ExtNode
  | [] => .ok node
  | i :: rest =>
    match nodeDerive p node i with
    | .error e => .error e
    | .ok n2 => derivePathSegs p n2 rest

/-- `node.neutered()`: drop the private scalar. -/
def neutered (node : ExtNode) : ExtNode := { node with privKey := none }

/-- The decoded content of a base58check-serialized BIP32 extended key
(the 78-byte payload behind `toBase58`). -/
structure SerKey where
  version : Nat
  depth : Nat
  parentFp : Nat
  childIndex : Nat
  chainCode : Nat
  keyIsPrivate : Bool
  keyData : Nat
deriving DecidableEq, Repr

/-- `node.toBase58()`: version bytes from the node's network, private tag
and scalar for private-capable nodes, public tag and point otherwise. -/
def toBase58 (node : ExtNode) : SerKey :=
  match node.privKey with
  | some k =>
    { version := node.network.bip32priv, depth := node.depth, parentFp := node.parentFp,
      childIndex := node.childIndex, chainCode := node.chainCode,
      keyIsPrivate := true, keyData := k }
  | none =>
    { version := node.network.bip32pub, depth := node.depth, parentFp := node.parentFp,
      childIndex := node.childIndex, chainCode := node.chainCode,
      keyIsPrivate := false, keyData := node.pubKey }

/-- `bip32.fromBase58(s, network)`: version bytes must match the supplied
network (public or private magic), otherwise an XPubParseError. -/
def fromBase58 (s : SerKey) (network : Network) : Except DError ExtNode :=
  if s.version = network.bip32pub then
    if s.keyIsPrivate then .error (.xpubParse "invalid network version")
    else .ok { privKey := none, pubKey := s.keyData, chainCode := s.chainCode,
               depth := s.depth, parentFp := s.parentFp, childIndex := s.childIndex, network }
  else if s.version = network.bip32priv then
    if s.keyIsPrivate then
      .ok { privKey := some s.keyData, pubKey := s.keyData, chainCode := s.chainCode,
            depth := s.depth, parentFp := s.parentFp, childIndex := s.childIndex, network }
    else .error (.xpubParse "invalid network version")
  else .error (.xpubParse "invalid network version")

/-- `deriveNode` of `src/derive.ts`: root from seed, then walk the path.
The segment list is an `Except` because a caller-supplied custom path may
fail to parse; as in the code, the seed is checked first. -/
def deriveNode (p : Prim) (seed : List Nat) (segs : Except DError (List Nat))
    (network : Network) : Except DError ExtNode :=
  match fromSeed p seed network with
  | .error e => .error e
  | .ok root =>
    match segs with
    | .error e => .error e
    | .ok s => derivePathSegs p root s

/-- `deriveXpub` of `src/derive.ts`: re-derive from the seed up to the
parent of the last path segment, neuter, serialize. -/
def deriveXpubM (p : Prim) (seed : List Nat) (segs : Except DError (List Nat))
    (network : Network) : Except DError SerKey :=
  match fromSeed p seed network with
  | .error e => .error e
  | .ok root =>
    match segs with
    | .error e => .error e
    | .ok s =>
      match derivePathSegs p root s.dropLast with
      | .error e => .error e
      | .ok node => .ok (toBase58 (neutered node))

/-- SLIP-44 coin types (`src/chains.ts`). -/
def SLIP44 : Chain → Nat
  | .BTC => 0
  | .ETH => 60
  | .BSC => 60
  | .DOGE => 3
  | .LTC => 2
  | .TRX => 195
  | .XRP => 144
  | .SOL => 501

/-- Default purposes per chain (`src/chains.ts`). -/
def DEFAULT_PURPOSE : Chain → Nat
  | .BTC => 84
  | .LTC => 84
  | .DOGE => 44
  | .ETH => 44
  | .BSC => 44
  | .TRX => 44
  | .XRP => 44
  | .SOL => 44

/-- Rendered text of a full standard path. -/
def stdPathText (purpose coin account change index : Nat) : String :=
  "m/" ++ hseg purpose ++ "/" ++ hseg coin ++ "/" ++ hseg account ++ "/" ++
    Nat.repr change ++ "/" ++ Nat.repr index

/-- Rendered text of a Solana account-level path. -/
def solPathText (account : Nat) : String :=
  "m/" ++ hseg 44 ++ "/" ++ hseg 501 ++ "/" ++ hseg account

/-- A derivation path as used by the engine: the reported text together
with the parsed segment indices fed to the key tree (an `Except` because a
caller-supplied custom path may be malformed). -/
structure BuiltPath where
  text : String
  segs : Except DError (List Nat)

/-- `buildPath` of `src/derive.ts`: the override guard is the JS truthiness
test `if (opts?.customPath) return opts.customPath`, so an absent *or
empty* override string is treated as missing and the standard table path
is composed; a non-empty override is returned verbatim.  Solana keeps only
the hardened account segment. -/
def buildPath (p : Prim) (chain : Chain) (opts : DeriveOpts) : BuiltPath :=
  let custom := opts.customPath.getD ""
  if custom = "" then
    let purpose := DEFAULT_PURPOSE chain
    let coin := SLIP44 chain
    let account := opts.account.getD 0
    let change := opts.change.getD 0
    let index := opts.index.getD 0
    if chain = .SOL then
      { text := solPathText account,
        segs := .ok [hardBase + purpose, hardBase + coin, hardBase + account] }
    else
      { text := stdPathText purpose coin account change index,
        segs := .ok [hardBase + purpose, hardBase + coin, hardBase + account, change, index] }
  else
    { text := custom,
      segs := match p.parsePath custom with
              | some l => .ok l
              | none => .error (.inputError "Expected BIP32Path") }

/-- `getNetwork` of `src/derive.ts` (only consulted for BTC/LTC/DOGE). -/
def getNetwork (chain : Chain) (opts : DeriveOpts) : Network :=
  if opts.regtest then
    match chain with
    | .BTC => bitcoinRegtest
    | .LTC => ltcRegtest
    | .DOGE => dogeRegtest
    | _ => bitcoinMainnet
  else if opts.testnet then
    match chain with
    | .BTC => bitcoinTestnet
    | .LTC => ltcTestnet
    | .DOGE => dogeTestnet
    | _ => bitcoinMainnet
  else
    match chain with
    | .BTC => bitcoinMainnet
    | .LTC => litecoin
    | .DOGE => dogecoin
    | _ => bitcoinMainnet

/-- EIP-55 mixed-case checksum application (`src/derive.ts` lines 30-38):
hex digit `i` is uppercased iff nibble `i` of the keccak of the lowercase
address is at least 8. -/
def eip55Apply (addr : List Char) (chk : List Nat) : List Char :=
  addr.enum.map (fun iv =>
    let byte := chk.getD (iv.1 / 2) 0
    let nib := if iv.1 % 2 = 0 then byte / 16 else byte % 16
    if 8 ≤ nib then iv.2.toUpper else iv.2)

/-- `ethAddressFromUncompressed` of `src/derive.ts`: drop the 0x04 prefix,
keccak the 64-byte body, keep the last 20 bytes, render lowercase hex and
apply the EIP-55 checksum. -/
def ethAddressFromUncompressed (p : Prim) (uncompressed : List Nat) : String :=
  let body := uncompressed.drop 1
  let hash := p.keccak256 body
  let addr := hexChars (last20 hash)
  let chk := p.keccak256 (addr.map Char.toNat)
  "0x" ++ String.mk (eip55Apply addr chk)

/-- Modelled from the spec (§4.3, EVM row): the external ethers `Wallet`
renders the address of a private key as the EIP-55-checksummed keccak hash
of the 64-byte uncompressed public-key body.  The uncompressed form of the
key's public point is obtained from the external decompression primitive. -/
def walletAddressOfPriv (p : Prim) (k : Nat) : String :=
  ethAddressFromUncompressed p (p.decompress (p.serP k))

/-- Modelled from the spec (§4.3, TRX row): the external tronweb
`address.fromPrivateKey` — identical pipeline to ETH through the
last-20-bytes step, then `Base58Check(0x41 ‖ last20)`. -/
def tronFromPrivateKey (p : Prim) (k : Nat) : String :=
  let body := (p.decompress (p.serP k)).drop 1
  p.base58check 0x41 (last20 (p.keccak256 body))

/-- Modelled from the spec (§4.2, §7): SLIP-0010/ed25519 derivation of the
external `ed25519-hd-key` library (`derivePath(path, seedHex)`): every
step hardened, root from HMAC-SHA512("ed25519 seed", seed); a seed shorter
than 16 bytes is a fatal InputError. -/
def slip10Derive (p : Prim) (path : String) (seed : List Nat) : Except DError Nat :=
  if seed.length < 16 then .error (.inputError "Seed should be at least 128 bits")
  else .ok (p.slip10 path (hexOfBytes seed))

/-- The catch-and-rethrow of `addressSOL`: the failure message is wrapped,
the failure cause (spec classification) is preserved. -/
def wrapSol : DError → DError
  | .inputError m => .inputError ("Failed to derive Solana address: " ++ m)
  | .derivationError m => .derivationError ("Failed to derive Solana address: " ++ m)
  | .unsupportedOperation m => .unsupportedOperation ("Failed to derive Solana address: " ++ m)
  | .xpubParse m => .xpubParse ("Failed to derive Solana address: " ++ m)
  | .addressEncoding m => .addressEncoding ("Failed to derive Solana address: " ++ m)

/-- A full derivation result (`src/types.ts` `DerivedAddress`); the
conditional `testnet`/`regtest` spread fields are `false` when absent. -/
structure DerivedAddress where
  chain : Chain
  path : String
  address : String
  privateKeyHex : Option String := none
  privateKeyArray : Option (List Nat) := none
  xpub : Option SerKey := none
  testnet : Bool := false
  regtest : Bool := false
deriving DecidableEq, Repr

/-- `src/types.ts` `XPubResult`. -/
structure XPubResult where
  chain : Chain
  path : String
  xpub : SerKey
  network : String
deriving DecidableEq, Repr

/-- `src/types.ts` `WatchOnlyAddress`. -/
structure WatchOnlyAddress where
  chain : Chain
  path : String
  address : String
  xpub : SerKey
deriving DecidableEq, Repr

/-- `addressBTC`: bech32 P2WPKH over the derived public key. -/
def addressBTC (p : Prim) (seed : List Nat) (opts : DeriveOpts) : Except DError DerivedAddress :=
  let path := buildPath p .BTC opts
  let network := getNetwork .BTC opts
  match deriveNode p seed path.segs network with
  | .error e => .error e
  | .ok node =>
    match deriveXpubM p seed path.segs network with
    | .error e => .error e
    | .ok xpub =>
      .ok { chain := .BTC, path := path.text,
            address := p.bech32v0 (network.bech32.getD "") (hash160 p (p.serP node.pubKey)),
            privateKeyHex := some (hex64 (node.privKey.getD 0)), xpub := some xpub }

/-- `addressLTC`: bech32 P2WPKH with the litecoin network. -/
def addressLTC (p : Prim) (seed : List Nat) (opts : DeriveOpts) : Except DError DerivedAddress :=
  let path := buildPath p .LTC opts
  let network := getNetwork .LTC opts
  match deriveNode p seed path.segs network with
  | .error e => .error e
  | .ok node =>
    match deriveXpubM p seed path.segs network with
    | .error e => .error e
    | .ok xpub =>
      .ok { chain := .LTC, path := path.text,
            address := p.bech32v0 (network.bech32.getD "") (hash160 p (p.serP node.pubKey)),
            privateKeyHex := some (hex64 (node.privKey.getD 0)), xpub := some xpub }

/-- `addressDOGE`: legacy Base58Check P2PKH. -/
def addressDOGE (p : Prim) (seed : List Nat) (opts : DeriveOpts) : Except DError DerivedAddress :=
  let path := buildPath p .DOGE opts
  let network := getNetwork .DOGE opts
  match deriveNode p seed path.segs network with
  | .error e => .error e
  | .ok node =>
    match deriveXpubM p seed path.segs network with
    | .error e => .error e
    | .ok xpub =>
      .ok { chain := .DOGE, path := path.text,
            address := p.base58check network.pubKeyHash (hash160 p (p.serP node.pubKey)),
            privateKeyHex := some (hex64 (node.privKey.getD 0)), xpub := some xpub }

/-- `addressETH`: derive with the default network, render via the ethers
wallet, export the raw scalar hex. -/
def addressETH (p : Prim) (seed : List Nat) (opts : DeriveOpts) : Except DError DerivedAddress :=
  let path := buildPath p .ETH opts
  match deriveNode p seed path.segs bitcoinMainnet with
  | .error e => .error e
  | .ok node =>
    match deriveXpubM p seed path.segs bitcoinMainnet with
    | .error e => .error e
    | .ok xpub =>
      .ok { chain := .ETH, path := path.text,
            address := walletAddressOfPriv p (node.privKey.getD 0),
            privateKeyHex := some (hex64 (node.privKey.getD 0)), xpub := some xpub,
            testnet := opts.testnet, regtest := opts.regtest }

/-- `addressBSC`: identical derivation to ETH, BSC label. -/
def addressBSC (p : Prim) (seed : List Nat) (opts : DeriveOpts) : Except DError DerivedAddress :=
  let path := buildPath p .BSC opts
  match deriveNode p seed path.segs bitcoinMainnet with
  | .error e => .error e
  | .ok node =>
    match deriveXpubM p seed path.segs bitcoinMainnet with
    | .error e => .error e
    | .ok xpub =>
      .ok { chain := .BSC, path := path.text,
            address := walletAddressOfPriv p (node.privKey.getD 0),
            privateKeyHex := some (hex64 (node.privKey.getD 0)), xpub := some xpub,
            testnet := opts.testnet, regtest := opts.regtest }

/-- `addressTRX`: secp256k1 key, Tron base58 address via tronweb. -/
def addressTRX (p : Prim) (seed : List Nat) (opts : DeriveOpts) : Except DError DerivedAddress :=
  let path := buildPath p .TRX opts
  match deriveNode p seed path.segs bitcoinMainnet with
  | .error e => .error e
  | .ok node =>
    match deriveXpubM p seed path.segs bitcoinMainnet with
    | .error e => .error e
    | .ok xpub =>
      .ok { chain := .TRX, path := path.text,
            address := tronFromPrivateKey p (node.privKey.getD 0),
            privateKeyHex := some (hex64 (node.privKey.getD 0)), xpub := some xpub,
            testnet := opts.testnet, regtest := opts.regtest }

/-- `addressXRP`: XRPL classic address from `RIPEMD160(SHA256(pubkey))`. -/
def addressXRP (p : Prim) (seed : List Nat) (opts : DeriveOpts) : Except DError DerivedAddress :=
  let path := buildPath p .XRP opts
  match deriveNode p seed path.segs bitcoinMainnet with
  | .error e => .error e
  | .ok node =>
    match deriveXpubM p seed path.segs bitcoinMainnet with
    | .error e => .error e
    | .ok xpub =>
      .ok { chain := .XRP, path := path.text,
            address := p.rippleB58 (hash160 p (p.serP node.pubKey)),
            privateKeyHex := some (hex64 (node.privKey.getD 0)), xpub := some xpub,
            testnet := opts.testnet, regtest := opts.regtest }

/-- `addressSOL`: Trust-Wallet style account-level SLIP-0010 derivation;
the hardened segment is `account + index`; `customPath` is not consulted. -/
def addressSOL (p : Prim) (seed : List Nat) (opts : DeriveOpts) : Except DError DerivedAddress :=
  let account := opts.account.getD 0
  let index := opts.index.getD 0
  let twAccount := account + index
  let path := solPathText twAccount
  match slip10Derive p path seed with
  | .error e => .error (wrapSol e)
  | .ok priv32 =>
    .ok { chain := .SOL, path := path,
          address := p.base58raw (p.ed25519Pub priv32),
          privateKeyHex := some (hex64 priv32),
          privateKeyArray := some (ser256 priv32),
          testnet := opts.testnet, regtest := opts.regtest }

/-- `deriveAddressForChain`: per-chain dispatch. -/
def deriveAddressForChain (p : Prim) (chain : Chain) (seed : List Nat)
    (opts : DeriveOpts) : Except DError DerivedAddress :=
  match chain with
  | .BTC => addressBTC p seed opts
  | .LTC => addressLTC p seed opts
  | .DOGE => addressDOGE p seed opts
  | .ETH => addressETH p seed opts
  | .BSC => addressBSC p seed opts
  | .TRX => addressTRX p seed opts
  | .XRP => addressXRP p seed opts
  | .SOL => addressSOL p seed opts

/-- The network label of an `XPubResult`. -/
def netLabel (opts : DeriveOpts) : String :=
  if opts.regtest then "regtest" else if opts.testnet then "testnet" else "mainnet"

/-- `deriveXPubBTC`: full path, then the neutered parent serialization. -/
def deriveXPubBTC (p : Prim) (seed : List Nat) (opts : DeriveOpts) : Except DError XPubResult :=
  let account := opts.account.getD 0
  let change := opts.change.getD 0
  let index := opts.index.getD 0
  let network := getNetwork .BTC opts
  match deriveXpubM p seed (.ok [hardBase + 84, hardBase + 0, hardBase + account, change, index]) network with
  | .error e => .error e
  | .ok xpub =>
    .ok { chain := .BTC, path := stdPathText 84 0 account change index,
          xpub := xpub, network := netLabel opts }

/-- `deriveXPubLTC`: forces the standard Bitcoin-family network bytes. -/
def deriveXPubLTC (p : Prim) (seed : List Nat) (opts : DeriveOpts) : Except DError XPubResult :=
  let account := opts.account.getD 0
  let change := opts.change.getD 0
  let index := opts.index.getD 0
  let network := if opts.regtest then bitcoinRegtest else if opts.testnet then bitcoinTestnet else bitcoinMainnet
  match deriveXpubM p seed (.ok [hardBase + 84, hardBase + 2, hardBase + account, change, index]) network with
  | .error e => .error e
  | .ok xpub =>
    .ok { chain := .LTC, path := stdPathText 84 2 account change index,
          xpub := xpub, network := netLabel opts }

/-- `deriveXPubDOGE`: forces the standard Bitcoin-family network bytes. -/
def deriveXPubDOGE (p : Prim) (seed : List Nat) (opts : DeriveOpts) : Except DError XPubResult :=
  let account := opts.account.getD 0
  let change := opts.change.getD 0
  let index := opts.index.getD 0
  let network := if opts.regtest then bitcoinRegtest else if opts.testnet then bitcoinTestnet else bitcoinMainnet
  match deriveXpubM p seed (.ok [hardBase + 44, hardBase + 3, hardBase + account, change, index]) network with
  | .error e => .error e
  | .ok xpub =>
    .ok { chain := .DOGE, path := stdPathText 44 3 account change index,
          xpub := xpub, network := netLabel opts }

/-- `deriveXPubETH`. -/
def deriveXPubETH (p : Prim) (seed : List Nat) (opts : DeriveOpts) : Except DError XPubResult :=
  let account := opts.account.getD 0
  let change := opts.change.getD 0
  let index := opts.index.getD 0
  match deriveXpubM p seed (.ok [hardBase + 44, hardBase + 60, hardBase + account, change, index]) bitcoinMainnet with
  | .error e => .error e
  | .ok xpub =>
    .ok { chain := .ETH, path := stdPathText 44 60 account change index,
          xpub := xpub, network := netLabel opts }

/-- `deriveXPubBSC`. -/
def deriveXPubBSC (p : Prim) (seed : List Nat) (opts : DeriveOpts) : Except DError XPubResult :=
  let account := opts.account.getD 0
  let change := opts.change.getD 0
  let index := opts.index.getD 0
  match deriveXpubM p seed (.ok [hardBase + 44, hardBase + 60, hardBase + account, change, index]) bitcoinMainnet with
  | .error e => .error e
  | .ok xpub =>
    .ok { chain := .BSC, path := stdPathText 44 60 account change index,
          xpub := xpub, network := netLabel opts }

/-- `deriveXPubTRX`. -/
def deriveXPubTRX (p : Prim) (seed : List Nat) (opts : DeriveOpts) : Except DError XPubResult :=
  let account := opts.account.getD 0
  let change := opts.change.getD 0
  let index := opts.index.getD 0
  match deriveXpubM p seed (.ok [hardBase + 44, hardBase + 195, hardBase + account, change, index]) bitcoinMainnet with
  | .error e => .error e
  | .ok xpub =>
    .ok { chain := .TRX, path := stdPathText 44 195 account change index,
          xpub := xpub, network := netLabel opts }

/-- `deriveXPubXRP`. -/
def deriveXPubXRP (p : Prim) (seed : List Nat) (opts : DeriveOpts) : Except DError XPubResult :=
  let account := opts.account.getD 0
  let change := opts.change.getD 0
  let index := opts.index.getD 0
  match deriveXpubM p seed (.ok [hardBase + 44, hardBase + 144, hardBase + account, change, index]) bitcoinMainnet with
  | .error e => .error e
  | .ok xpub =>
    .ok { chain := .XRP, path := stdPathText 44 144 account change index,
          xpub := xpub, network := netLabel opts }

/-- `deriveXPubForChain`: per-chain dispatch; Solana is unsupported. -/
def deriveXPubForChain (p : Prim) (chain : Chain) (seed : List Nat)
    (opts : DeriveOpts) : Except DError XPubResult :=
  match chain with
  | .BTC => deriveXPubBTC p seed opts
  | .LTC => deriveXPubLTC p seed opts
  | .DOGE => deriveXPubDOGE p seed opts
  | .ETH => deriveXPubETH p seed opts
  | .BSC => deriveXPubBSC p seed opts
  | .TRX => deriveXPubTRX p seed opts
  | .XRP => deriveXPubXRP p seed opts
  | .SOL => .error (.unsupportedOperation "Solana does not support xpub derivation (uses ed25519)")

/-- `deriveWatchOnlyBTC`: parse the xpub, derive the index child only,
render P2WPKH; the path string hardcodes account 0 and reports `change`
informationally. -/
def deriveWatchOnlyBTC (p : Prim) (xpub : SerKey) (change index : Nat)
    (testnet regtest : Bool) : Except DError WatchOnlyAddress :=
  let network := if regtest then bitcoinRegtest else if testnet then bitcoinTestnet else bitcoinMainnet
  match fromBase58 xpub network with
  | .error e => .error e
  | .ok node =>
    match nodeDerive p node index with
    | .error e => .error e
    | .ok child =>
      .ok { chain := .BTC, path := stdPathText 84 0 0 change index,
            address := p.bech32v0 (network.bech32.getD "") (hash160 p (p.serP child.pubKey)),
            xpub := xpub }

/-- `deriveWatchOnlyLTC`: parse with standard Bitcoin bytes, encode with
the LTC-specific network. -/
def deriveWatchOnlyLTC (p : Prim) (xpub : SerKey) (change index : Nat)
    (testnet regtest : Bool) : Except DError WatchOnlyAddress :=
  let xpubNetwork := if regtest then bitcoinRegtest else if testnet then bitcoinTestnet else bitcoinMainnet
  match fromBase58 xpub xpubNetwork with
  | .error e => .error e
  | .ok node =>
    match nodeDerive p node index with
    | .error e => .error e
    | .ok child =>
      let addressNetwork := if regtest then ltcRegtest else if testnet then ltcTestnet else litecoin
      .ok { chain := .LTC, path := stdPathText 84 2 0 change index,
            address := p.bech32v0 (addressNetwork.bech32.getD "") (hash160 p (p.serP child.pubKey)),
            xpub := xpub }

/-- `deriveWatchOnlyDOGE`: parse with standard Bitcoin bytes, encode legacy
P2PKH with the DOGE-specific network. -/
def deriveWatchOnlyDOGE (p : Prim) (xpub : SerKey) (change index : Nat)
    (testnet regtest : Bool) : Except DError WatchOnlyAddress :=
  let xpubNetwork := if regtest then bitcoinRegtest else if testnet then bitcoinTestnet else bitcoinMainnet
  match fromBase58 xpub xpubNetwork with
  | .error e => .error e
  | .ok node =>
    match nodeDerive p node index with
    | .error e => .error e
    | .ok child =>
      let addressNetwork := if regtest then dogeRegtest else if testnet then dogeTestnet else dogecoin
      .ok { chain := .DOGE, path := stdPathText 44 3 0 change index,
            address := p.base58check addressNetwork.pubKeyHash (hash160 p (p.serP child.pubKey)),
            xpub := xpub }

/-- `deriveWatchOnlyETH`: in-repo decompress + keccak EIP-55 pipeline. -/
def deriveWatchOnlyETH (p : Prim) (xpub : SerKey) (change index : Nat) :
    Except DError WatchOnlyAddress :=
  match fromBase58 xpub bitcoinMainnet with
  | .error e => .error e
  | .ok node =>
    match nodeDerive p node index with
    | .error e => .error e
    | .ok child =>
      .ok { chain := .ETH, path := stdPathText 44 60 0 change index,
            address := ethAddressFromUncompressed p (p.decompress (p.serP child.pubKey)),
            xpub := xpub }

/-- `deriveWatchOnlyBSC`: same pipeline as ETH. -/
def deriveWatchOnlyBSC (p : Prim) (xpub : SerKey) (change index : Nat) :
    Except DError WatchOnlyAddress :=
  match fromBase58 xpub bitcoinMainnet with
  | .error e => .error e
  | .ok node =>
    match nodeDerive p node index with
    | .error e => .error e
    | .ok child =>
      .ok { chain := .BSC, path := stdPathText 44 60 0 change index,
            address := ethAddressFromUncompressed p (p.decompress (p.serP child.pubKey)),
            xpub := xpub }

/-- `deriveWatchOnlyTRX`: in-repo manual keccak/Base58Check pipeline
(`toBase58Check(last20, 0x41)`). -/
def deriveWatchOnlyTRX (p : Prim) (xpub : SerKey) (change index : Nat)
    (testnet regtest : Bool) : Except DError WatchOnlyAddress :=
  match fromBase58 xpub bitcoinMainnet with
  | .error e => .error e
  | .ok node =>
    match nodeDerive p node index with
    | .error e => .error e
    | .ok child =>
      .ok { chain := .TRX, path := stdPathText 44 195 0 change index,
            address := p.base58check 0x41
              (last20 (p.keccak256 ((p.decompress (p.serP child.pubKey)).drop 1))),
            xpub := xpub }

/-- `deriveWatchOnlyXRP`. -/
def deriveWatchOnlyXRP (p : Prim) (xpub : SerKey) (change index : Nat) :
    Except DError WatchOnlyAddress :=
  match fromBase58 xpub bitcoinMainnet with
  | .error e => .error e
  | .ok node =>
    match nodeDerive p node index with
    | .error e => .error e
    | .ok child =>
      .ok { chain := .XRP, path := stdPathText 44 144 0 change index,
            address := p.rippleB58 (hash160 p (p.serP child.pubKey)),
            xpub := xpub }

/-- `deriveWatchOnlyAddress`: per-chain dispatch; Solana is unsupported. -/
def deriveWatchOnlyAddress (p : Prim) (chain : Chain) (xpub : SerKey)
    (change index : Nat) (testnet regtest : Bool) : Except DError WatchOnlyAddress :=
  match chain with
  | .BTC => deriveWatchOnlyBTC p xpub change index testnet regtest
  | .LTC => deriveWatchOnlyLTC p xpub change index testnet regtest
  | .DOGE => deriveWatchOnlyDOGE p xpub change index testnet regtest
  | .ETH => deriveWatchOnlyETH p xpub change index
  | .BSC => deriveWatchOnlyBSC p xpub change index
  | .TRX => deriveWatchOnlyTRX p xpub change index testnet regtest
  | .XRP => deriveWatchOnlyXRP p xpub change index
  | .SOL => .error (.unsupportedOperation "Solana does not support watch-only derivation (uses ed25519)")

/-- A concrete, fully computable instantiation of the external primitives,
used to evaluate the engine on concrete inputs.  The HMAC always returns a
small nonzero left half, so the BIP32 validity retry never triggers; the
encoders are injective enough to distinguish the concrete cases below. -/
def demoPrim : Prim where
  hmacSHA512 := fun key msg => (1 + (key.sum + 3 * msg.sum) % 1000, (key.sum + 7 * msg.sum) % 1000)
  serP := fun k => 2 :: ser256 k
  decompress := fun l => 4 :: (l.drop 1 ++ l.drop 1)
  sha256 := fun l => 2 :: l
  ripemd160 := fun l => (3 :: l).take 20
  keccak256 := fun l => List.replicate 12 (l.sum % 251) ++ (l ++ List.replicate 20 7).take 20
  bech32v0 := fun hrp prog => hrp ++ "1" ++ hexOfBytes prog
  base58check := fun v payload => "B" ++ Nat.repr v ++ "x" ++ hexOfBytes payload
  rippleB58 := fun l => "r" ++ hexOfBytes l
  slip10 := fun path seedHex => 1 + (asciiBytes path).sum + 2 * (asciiBytes seedHex).sum
  ed25519Pub := fun k => k + 1
  base58raw := fun k => "S" ++ Nat.repr k
  parsePath := fun s => if s = "m/0" then some [0] else none

/-- A 16-byte demo seed. -/
def demoSeed : List Nat := List.replicate 16 7

/-- A seed shorter than 16 bytes. -/
def shortSeed : List Nat := [1, 2, 3]

/-- The (pubkey, chain code, private key) content of a node: everything the
key-tree math depends on.  The `network` only affects serialization and
address prefixes, and the depth/fingerprint metadata only affects
serialization headers. -/
def coreOf (n : ExtNode) : Nat × Nat × Option Nat := (n.pubKey, n.chainCode, n.privKey)

/-- `nodeDerive` seen on core content only. -/
def nodeDeriveCore (p : Prim) (c : Nat × Nat × Option Nat) (i : Nat) :
    Except DError (Nat × Nat × Option Nat) :=
  match c.2.2 with
  | some k => (ckdPriv p k c.2.1 i FUEL).map (fun t => (t.1, t.2.1, some t.1))
  | none => (ckdPub p c.1 c.2.1 i FUEL).map (fun t => (t.1, t.2.1, none))

/-- `derivePathSegs` seen on core content only. -/
def deriveSegsCore (p : Prim) (c : Nat × Nat × Option Nat) :
    List Nat → Except DError (Nat × Nat × Option Nat)
  | [] => .ok c
  | i :: rest =>
    match nodeDeriveCore p c i with
    | .error e => .error e
    | .ok c2 => deriveSegsCore p c2 rest

/-- `fromSeed` seen on core content only (network independent). -/
def fromSeedCore (p : Prim) (seed : List Nat) : Except DError (Nat × Nat × Option Nat) :=
  if seed.length < 16 then .error (.inputError "Seed should be at least 128 bits")
  else
    let hm := p.hmacSHA512 masterKeyBytes seed
    if nOrder ≤ hm.1 ∨ hm.1 = 0 then .error (.derivationError "invalid master key")
    else .ok (hm.1, hm.2, some hm.1)

theorem exmap_ok {ε α β : Type} {f : α → β} {x : Except ε α} {c : β}
    (h : x.map f = .ok c) : ∃ v, x = .ok v ∧ f v = c := by
  cases x with
  | error e => exact absurd h (by simp [Except.map])
  | ok v => exact ⟨v, rfl, by simpa [Except.map] using h⟩

theorem nodeDerive_core (p : Prim) (n : ExtNode) (i : Nat) :
    (nodeDerive p n i).map coreOf = nodeDeriveCore p (coreOf n) i := by
  unfold nodeDerive nodeDeriveCore coreOf
  cases hp : n.privKey with
  | some k =>
    cases h : ckdPriv p k n.chainCode i FUEL with
    | error e => simp [h, Except.map]
    | ok t => simp [h, Except.map]
  | none =>
    cases h : ckdPub p n.pubKey n.chainCode i FUEL with
    | error e => simp [h, Except.map]
    | ok t => simp [h, Except.map]

theorem derivePathSegs_core (p : Prim) (l : List Nat) :
    ∀ n : ExtNode, (derivePathSegs p n l).map coreOf = deriveSegsCore p (coreOf n) l := by
  induction l with
  | nil => intro n; simp [derivePathSegs, deriveSegsCore, Except.map]
  | cons i rest ih =>
    intro n
    unfold derivePathSegs deriveSegsCore
    cases h : nodeDerive p n i with
    | error e =>
      have hnc := nodeDerive_core p n i
      rw [h] at hnc
      simp only [Except.map] at hnc
      rw [← hnc]
      simp [Except.map]
    | ok m =>
      have hnc := nodeDerive_core p n i
      rw [h] at hnc
      simp only [Except.map] at hnc
      rw [← hnc]
      exact ih m

theorem fromSeed_core (p : Prim) (seed : List Nat) (net : Network) :
    (fromSeed p seed net).map coreOf = fromSeedCore p seed := by
  unfold fromSeed fromSeedCore
  by_cases h : seed.length < 16
  · simp [h, Except.map]
  · by_cases h2 : nOrder ≤ (p.hmacSHA512 masterKeyBytes seed).1 ∨ (p.hmacSHA512 masterKeyBytes seed).1 = 0
    · simp [h, h2, Except.map]
    · simp [h, h2, Except.map, coreOf]

theorem fromSeed_network (p : Prim) (seed : List Nat) (net : Network) (n : ExtNode)
    (h : fromSeed p seed net = .ok n) : n.network = net := by
  unfold fromSeed at h
  by_cases h1 : seed.length < 16
  · simp [h1] at h
  · simp only [h1, if_false] at h
    by_cases h2 : nOrder ≤ (p.hmacSHA512 masterKeyBytes seed).1 ∨ (p.hmacSHA512 masterKeyBytes seed).1 = 0
    · simp [h2] at h
    · simp only [h2, if_false] at h
      cases h
      rfl

theorem nodeDerive_network (p : Prim) (n m : ExtNode) (i : Nat)
    (h : nodeDerive p n i = .ok m) : m.network = n.network := by
  obtain ⟨priv, pub, cc, d, fp, ci, net⟩ := n
  cases priv with
  | some k =>
    unfold nodeDerive at h
    dsimp only at h
    cases hc : ckdPriv p k cc i FUEL with
    | error e => rw [hc] at h; exact Except.noConfusion h
    | ok t => rw [hc] at h; cases h; rfl
  | none =>
    unfold nodeDerive at h
    dsimp only at h
    cases hc : ckdPub p pub cc i FUEL with
    | error e => rw [hc] at h; exact Except.noConfusion h
    | ok t => rw [hc] at h; cases h; rfl

theorem derivePathSegs_network (p : Prim) (l : List Nat) :
    ∀ n m : ExtNode, derivePathSegs p n l = .ok m → m.network = n.network := by
  induction l with
  | nil => intro n m h; cases h; rfl
  | cons i rest ih =>
    intro n m h
    unfold derivePathSegs at h
    cases hc : nodeDerive p n i with
    | error e => rw [hc] at h; exact Except.noConfusion h
    | ok n2 =>
      rw [hc] at h
      exact (ih n2 m h).trans (nodeDerive_network p n n2 i hc)

/-- The heart of watch-only correctness: below the hardened boundary,
public-only child derivation computes exactly the private child derivation
(in the scalar model `childPriv = IL + parent mod n` and
`childPub = parentPub + IL·G` coincide), including the deterministic
index-skip retries. -/
theorem ckdPub_eq_ckdPriv (p : Prim) (k cc : Nat) :
    ∀ fuel i : Nat, i + fuel ≤ hardBase → ckdPub p k cc i fuel = ckdPriv p k cc i fuel := by
  intro fuel
  induction fuel with
  | zero => intro i _; rfl
  | succ f ih =>
    intro i hi
    have hlt : ¬ hardBase ≤ i := by omega
    unfold ckdPub ckdPriv
    simp only [hlt, if_false]
    by_cases hbad : nOrder ≤ (p.hmacSHA512 (ser256 cc) (p.serP k ++ ser32 i)).1 ∨
        ((p.hmacSHA512 (ser256 cc) (p.serP k ++ ser32 i)).1 + k) % nOrder = 0
    · simp only [hbad, if_true]
      exact ih (i + 1) (by omega)
    · simp only [hbad, if_false]

/-- Splitting off the last segment of a core derivation walk. -/
theorem deriveSegsCore_append (p : Prim) (l : List Nat) (i : Nat) :
    ∀ c, deriveSegsCore p c (l ++ [i]) =
      match deriveSegsCore p c l with
      | .error e => .error e
      | .ok c2 => nodeDeriveCore p c2 i := by
  induction l with
  | nil =>
    intro c
    unfold deriveSegsCore
    cases h : nodeDeriveCore p c i with
    | error e => simp [h, deriveSegsCore]
    | ok c2 => simp [h, deriveSegsCore]
  | cons j rest ih =>
    intro c
    show deriveSegsCore p c (j :: (rest ++ [i])) = _
    unfold deriveSegsCore
    cases h : nodeDeriveCore p c j with
    | error e => simp [h]
    | ok c2 => simpa [h] using ih c2

/-- Private-capable cores keep `priv = some pub` along any walk. -/
theorem deriveSegsCore_priv (p : Prim) (l : List Nat) :
    ∀ c c2, c.2.2 = some c.1 → deriveSegsCore p c l = .ok c2 → c2.2.2 = some c2.1 := by
  induction l with
  | nil => intro c c2 hp h; cases h; exact hp
  | cons i rest ih =>
    intro c c2 hp h
    unfold deriveSegsCore at h
    cases hc : nodeDeriveCore p c i with
    | error e => rw [hc] at h; exact Except.noConfusion h
    | ok cm =>
      rw [hc] at h
      refine ih cm c2 ?_ h
      unfold nodeDeriveCore at hc
      rw [hp] at hc
      obtain ⟨t, _, ht⟩ := exmap_ok hc
      rw [← ht]

theorem fromSeedCore_priv (p : Prim) (seed : List Nat) (c : Nat × Nat × Option Nat)
    (h : fromSeedCore p seed = .ok c) : c.2.2 = some c.1 := by
  unfold fromSeedCore at h
  by_cases h1 : seed.length < 16
  · simp [h1] at h
  · simp only [h1, if_false] at h
    by_cases h2 : nOrder ≤ (p.hmacSHA512 masterKeyBytes seed).1 ∨ (p.hmacSHA512 masterKeyBytes seed).1 = 0
    · simp [h2] at h
    · simp only [h2, if_false] at h
      cases h
      rfl

/-- Watch-only refinement, generic over the chain specifics: if the
extended public key was exported by `deriveXpubM` at the parent of a full
path and the full derivation of the path with last (non-hardened) segment
`i` succeeded, then parsing the export and deriving the single child `i`
succeeds and yields the same public key, for any parse network whose
public magic matches the export network, and regardless of the (purely
serialization-level) network used by the full derivation. -/
theorem watch_matches_full (p : Prim) (seed : List Nat) (pre : List Nat) (i j : Nat)
    (hi : i + FUEL ≤ hardBase) (netX netW netF : Network)
    (hmag : netX.bip32pub = netW.bip32pub)
    (xk : SerKey) (hx : deriveXpubM p seed (.ok (pre ++ [j])) netX = .ok xk)
    (full : ExtNode) (hf : deriveNode p seed (.ok (pre ++ [i])) netF = .ok full) :
    ∃ node child, fromBase58 xk netW = .ok node ∧ nodeDerive p node i = .ok child ∧
      child.pubKey = full.pubKey := by
  unfold deriveXpubM at hx
  cases hrx : fromSeed p seed netX with
  | error e => rw [hrx] at hx; exact Except.noConfusion hx
  | ok rootX =>
    rw [hrx] at hx
    dsimp only at hx
    rw [List.dropLast_concat] at hx
    cases hpx : derivePathSegs p rootX pre with
    | error e => rw [hpx] at hx; exact Except.noConfusion hx
    | ok parentX =>
      rw [hpx] at hx
      dsimp only at hx
      have hxk : xk = toBase58 (neutered parentX) := (Except.ok.inj hx).symm
      subst hxk
      unfold deriveNode at hf
      cases hrf : fromSeed p seed netF with
      | error e => rw [hrf] at hf; exact Except.noConfusion hf
      | ok rootF =>
        rw [hrf] at hf
        dsimp only at hf
        have hSX := fromSeed_core p seed netX
        have hSF := fromSeed_core p seed netF
        rw [hrx] at hSX
        rw [hrf] at hSF
        simp only [Except.map] at hSX hSF
        have hrootcore : coreOf rootX = coreOf rootF := Except.ok.inj (hSX.trans hSF.symm)
        have hwalkF := derivePathSegs_core p (pre ++ [i]) rootF
        rw [hf] at hwalkF
        rw [deriveSegsCore_append] at hwalkF
        simp only [Except.map] at hwalkF
        have hwalkX := derivePathSegs_core p pre rootX
        rw [hpx] at hwalkX
        simp only [Except.map] at hwalkX
        rw [hrootcore] at hwalkX
        rw [← hwalkX] at hwalkF
        dsimp only at hwalkF
        have hroot_priv : (coreOf rootF).2.2 = some (coreOf rootF).1 :=
          fromSeedCore_priv p seed _ hSF.symm
        have hparent_priv : (coreOf parentX).2.2 = some (coreOf parentX).1 :=
          deriveSegsCore_priv p pre (coreOf rootF) (coreOf parentX) hroot_priv hwalkX.symm
        unfold nodeDeriveCore at hwalkF
        rw [hparent_priv] at hwalkF
        dsimp only at hwalkF
        obtain ⟨t, hckd, hcore⟩ := exmap_ok hwalkF.symm
        have hnetX : parentX.network = netX :=
          (derivePathSegs_network p pre rootX parentX hpx).trans
            (fromSeed_network p seed netX rootX hrx)
        have hparse : fromBase58 (toBase58 (neutered parentX)) netW = .ok
            { privKey := none, pubKey := parentX.pubKey, chainCode := parentX.chainCode,
              depth := parentX.depth, parentFp := parentX.parentFp,
              childIndex := parentX.childIndex, network := netW } := by
          unfold toBase58 neutered fromBase58
          dsimp only
          rw [hnetX, hmag]
          simp
        have hckdP : ckdPriv p parentX.pubKey parentX.chainCode i FUEL = .ok t := hckd
        have hpubstep : ckdPub p parentX.pubKey parentX.chainCode i FUEL = .ok t :=
          (ckdPub_eq_ckdPriv p parentX.pubKey parentX.chainCode FUEL i hi).trans hckdP
        have hmap : (nodeDerive p
            { privKey := none, pubKey := parentX.pubKey, chainCode := parentX.chainCode,
              depth := parentX.depth, parentFp := parentX.parentFp,
              childIndex := parentX.childIndex, network := netW } i).map coreOf
            = .ok (t.1, t.2.1, none) := by
          rw [nodeDerive_core]
          unfold nodeDeriveCore coreOf
          dsimp only
          rw [hpubstep]
          rfl
        obtain ⟨child, hchild, hccore⟩ := exmap_ok hmap
        refine ⟨_, child, hparse, hchild, ?_⟩
        have h1 : child.pubKey = t.1 := congrArg (fun c => c.1) hccore
        have h2 : t.1 = full.pubKey := congrArg (fun c => c.1) hcore
        rw [h1, h2]

/-- C2: Solana exclusions — for every seed and every argument combination,
`deriveXPubForChain('SOL', …)` and `deriveWatchOnlyAddress('SOL', …)` both
fail with UnsupportedOperationError; they throw rather than return a
degraded or empty result. -/
theorem solana_exclusions (p : Prim) (seed : List Nat) (opts : DeriveOpts)
    (xpub : SerKey) (change index : Nat) (tn rt : Bool) :
    deriveXPubForChain p .SOL seed opts =
      .error (.unsupportedOperation "Solana does not support xpub derivation (uses ed25519)") ∧
    deriveWatchOnlyAddress p .SOL xpub change index tn rt =
      .error (.unsupportedOperation "Solana does not support watch-only derivation (uses ed25519)") :=
  ⟨rfl, rfl⟩

/-- C10: the `change` argument of `deriveWatchOnlyAddress` never influences
the derived address (nor the echoed source xpub): derivation from the xpub
uses the index alone, and `change` (with a hardcoded account 0) appears
only in the informational path string of the result. -/
theorem watch_only_change_independent (p : Prim) (chain : Chain) (xpub : SerKey)
    (c1 c2 index : Nat) (tn rt : Bool) :
    (deriveWatchOnlyAddress p chain xpub c1 index tn rt).map (·.address) =
      (deriveWatchOnlyAddress p chain xpub c2 index tn rt).map (·.address) ∧
    (deriveWatchOnlyAddress p chain xpub c1 index tn rt).map (·.xpub) =
      (deriveWatchOnlyAddress p chain xpub c2 index tn rt).map (·.xpub) := by
  cases chain <;>
    first
      | exact ⟨rfl, rfl⟩
      | constructor <;>
        · simp only [deriveWatchOnlyAddress, deriveWatchOnlyBTC, deriveWatchOnlyLTC,
            deriveWatchOnlyDOGE, deriveWatchOnlyETH, deriveWatchOnlyBSC, deriveWatchOnlyTRX,
            deriveWatchOnlyXRP]
          split
          · rfl
          · split
            · rfl
            · rfl

/-- C8: ETH/BSC identity — for every seed and identical options,
`deriveAddressForChain('ETH', …)` and `deriveAddressForChain('BSC', …)`
agree on address, path and private-key export (both use purpose 44 and
coin type 60). -/
theorem eth_bsc_identity (p : Prim) (seed : List Nat) (opts : DeriveOpts) :
    (deriveAddressForChain p .ETH seed opts).map (·.address) =
      (deriveAddressForChain p .BSC seed opts).map (·.address) ∧
    (deriveAddressForChain p .ETH seed opts).map (·.path) =
      (deriveAddressForChain p .BSC seed opts).map (·.path) ∧
    (deriveAddressForChain p .ETH seed opts).map (·.privateKeyHex) =
      (deriveAddressForChain p .BSC seed opts).map (·.privateKeyHex) := by
  have hbp : buildPath p .BSC opts = buildPath p .ETH opts := rfl
  refine ⟨?_, ?_, ?_⟩ <;>
    · simp only [deriveAddressForChain, addressETH, addressBSC, hbp]
      split
      · rfl
      · split
        · rfl
        · rfl

/-- Does a call fail with an InputError? -/
def isInputError {α : Type} : Except DError α → Bool
  | .error (.inputError _) => true
  | _ => false

/-- C6: seed-length guard — for every chain and every seed shorter than 16
bytes, `deriveAddressForChain` fails with InputError instead of returning
a DerivedAddress. -/
theorem seed_length_guard (p : Prim) (chain : Chain) (seed : List Nat) (opts : DeriveOpts)
    (h : seed.length < 16) :
    isInputError (deriveAddressForChain p chain seed opts) = true := by
  cases chain <;>
    simp only [deriveAddressForChain, addressBTC, addressLTC, addressDOGE, addressETH,
      addressBSC, addressTRX, addressXRP, addressSOL, deriveNode, fromSeed, slip10Derive,
      h, if_true, wrapSol, isInputError]

/-- `deriveXpubM` output is always the serialization of a neutered node. -/
theorem deriveXpubM_neutered (p : Prim) (seed : List Nat) (segs : Except DError (List Nat))
    (net : Network) (k : SerKey) (h : deriveXpubM p seed segs net = .ok k) :
    k.keyIsPrivate = false ∧ ∃ n : ExtNode, k = toBase58 (neutered n) := by
  unfold deriveXpubM at h
  cases h1 : fromSeed p seed net with
  | error e => rw [h1] at h; exact Except.noConfusion h
  | ok root =>
    rw [h1] at h
    dsimp only at h
    cases segs with
    | error e => exact Except.noConfusion h
    | ok s =>
      dsimp only at h
      cases h2 : derivePathSegs p root s.dropLast with
      | error e => rw [h2] at h; exact Except.noConfusion h
      | ok node =>
        rw [h2] at h
        dsimp only at h
        have hk : toBase58 (neutered node) = k := Except.ok.inj h
        subst hk
        exact ⟨rfl, node, rfl⟩

/-- C3: an XPubResult never carries private-key material — whenever
`deriveXPubForChain` succeeds, the returned extended key is the
serialization of a neutered (public-only) node, with no private tag. -/
theorem xpub_result_neutered (p : Prim) (chain : Chain) (seed : List Nat) (opts : DeriveOpts)
    (xr : XPubResult) (hx : deriveXPubForChain p chain seed opts = .ok xr) :
    xr.xpub.keyIsPrivate = false ∧ ∃ n : ExtNode, xr.xpub = toBase58 (neutered n) := by
  cases chain <;>
    simp only [deriveXPubForChain, deriveXPubBTC, deriveXPubLTC, deriveXPubDOGE,
      deriveXPubETH, deriveXPubBSC, deriveXPubTRX, deriveXPubXRP] at hx
  case SOL => exact Except.noConfusion hx
  all_goals
    revert hx
    split
    · intro hx; exact Except.noConfusion hx
    · rename_i k heq
      intro hx
      have hxr := Except.ok.inj hx
      rw [← hxr]
      exact deriveXpubM_neutered p seed _ _ k heq

/-- C4: Solana aliasing — two option records whose `account + index` sums
agree produce identical results (address and path), both resolving to the
hardened segment `(account+index)'`. -/
theorem solana_aliasing (p : Prim) (seed : List Nat) (a1 i1 a2 i2 : Nat)
    (h : a1 + i1 = a2 + i2) :
    deriveAddressForChain p .SOL seed { account := some a1, index := some i1 } =
      deriveAddressForChain p .SOL seed { account := some a2, index := some i2 } ∧
    ∀ da, deriveAddressForChain p .SOL seed { account := some a1, index := some i1 } = .ok da →
      da.path = solPathText (a1 + i1) := by
  constructor
  · simp only [deriveAddressForChain, addressSOL, Option.getD_some]
    rw [h]
  · intro da hda
    simp only [deriveAddressForChain, addressSOL, Option.getD_some] at hda
    revert hda
    split
    · intro hda; exact Except.noConfusion hda
    · intro hda
      have := Except.ok.inj hda
      rw [← this]

/-- A node obtained by full derivation from a seed is private-capable, and
in the scalar model its public key equals its private scalar. -/
theorem deriveNode_priv (p : Prim) (seed : List Nat) (segs : Except DError (List Nat))
    (net : Network) (node : ExtNode) (h : deriveNode p seed segs net = .ok node) :
    node.privKey = some node.pubKey := by
  unfold deriveNode at h
  cases h1 : fromSeed p seed net with
  | error e => rw [h1] at h; exact Except.noConfusion h
  | ok root =>
    rw [h1] at h
    dsimp only at h
    cases segs with
    | error e => exact Except.noConfusion h
    | ok s =>
      dsimp only at h
      have hcore := derivePathSegs_core p s root
      rw [h] at hcore
      simp only [Except.map] at hcore
      have hrootS := fromSeed_core p seed net
      rw [h1] at hrootS
      simp only [Except.map] at hrootS
      have hroot_priv : (coreOf root).2.2 = some (coreOf root).1 :=
        fromSeedCore_priv p seed _ hrootS.symm
      exact deriveSegsCore_priv p s (coreOf root) (coreOf node) hroot_priv hcore.symm

/-- C1: watch-only equivalence — for every chain in {BTC, LTC, DOGE, ETH,
BSC, TRX, XRP}, every seed, account, change in {0,1} and index `i ≤ 5`,
deriving the extended public key at the account/change level with
`deriveXPubForChain` and then calling `deriveWatchOnlyAddress` yields the
very address produced by the full seed derivation
`deriveAddressForChain(chain, seed, {account, change, index})`, even
though the two paths use different encoders. -/
theorem watch_only_equivalence (p : Prim) (chain : Chain) (hc : chain ≠ .SOL)
    (seed : List Nat) (a ch i : Nat) (hch : ch ≤ 1) (hi : i ≤ 5)
    (xr : XPubResult)
    (hx : deriveXPubForChain p chain seed { account := some a, change := some ch } = .ok xr)
    (da : DerivedAddress)
    (hf : deriveAddressForChain p chain seed
      { account := some a, change := some ch, index := some i } = .ok da) :
    (deriveWatchOnlyAddress p chain xr.xpub ch i false false).map (·.address) = .ok da.address := by
  have hiF : i + FUEL ≤ hardBase := by
    unfold FUEL hardBase
    omega
  cases chain
  case SOL => exact absurd rfl hc
  case BTC =>
    simp only [deriveXPubForChain, deriveXPubBTC, getNetwork, Option.getD_some,
      Option.getD_none, Bool.false_eq_true, reduceCtorEq, if_false] at hx
    revert hx
    split
    · intro hx; exact Except.noConfusion hx
    · rename_i k heq
      intro hx
      have hxr := Except.ok.inj hx
      simp only [deriveAddressForChain, addressBTC, buildPath, getNetwork, DEFAULT_PURPOSE,
        SLIP44, Option.getD_some, Option.getD_none, Bool.false_eq_true, reduceCtorEq,
        eq_self_iff_true, if_true, if_false] at hf
      revert hf
      split
      · intro hf; exact Except.noConfusion hf
      · rename_i node hD
        split
        · intro hf; exact Except.noConfusion hf
        · rename_i xp2 hXp
          intro hf
          have hfr := Except.ok.inj hf
          obtain ⟨m, child, hm, hchild, hpubeq⟩ :=
            watch_matches_full p seed [hardBase + 84, hardBase + 0, hardBase + a, ch] i 0 hiF
              bitcoinMainnet bitcoinMainnet bitcoinMainnet rfl k heq node hD
          have hxpub : xr.xpub = k := by rw [← hxr]
          rw [hxpub]
          simp only [deriveWatchOnlyAddress, deriveWatchOnlyBTC, Bool.false_eq_true, if_false]
          rw [hm]
          dsimp only
          rw [hchild]
          dsimp only [Except.map]
          have hda : da.address =
              p.bech32v0 (bitcoinMainnet.bech32.getD "") (hash160 p (p.serP node.pubKey)) := by
            rw [← hfr]
          rw [hda, hpubeq]
  case LTC =>
    simp only [deriveXPubForChain, deriveXPubLTC, Option.getD_some,
      Option.getD_none, Bool.false_eq_true, reduceCtorEq, if_false] at hx
    revert hx
    split
    · intro hx; exact Except.noConfusion hx
    · rename_i k heq
      intro hx
      have hxr := Except.ok.inj hx
      simp only [deriveAddressForChain, addressLTC, buildPath, getNetwork, DEFAULT_PURPOSE,
        SLIP44, Option.getD_some, Option.getD_none, Bool.false_eq_true, reduceCtorEq,
        eq_self_iff_true, if_true, if_false] at hf
      revert hf
      split
      · intro hf; exact Except.noConfusion hf
      · rename_i node hD
        split
        · intro hf; exact Except.noConfusion hf
        · rename_i xp2 hXp
          intro hf
          have hfr := Except.ok.inj hf
          obtain ⟨m, child, hm, hchild, hpubeq⟩ :=
            watch_matches_full p seed [hardBase + 84, hardBase + 2, hardBase + a, ch] i 0 hiF
              bitcoinMainnet bitcoinMainnet litecoin rfl k heq node hD
          have hxpub : xr.xpub = k := by rw [← hxr]
          rw [hxpub]
          simp only [deriveWatchOnlyAddress, deriveWatchOnlyLTC, Bool.false_eq_true, if_false]
          rw [hm]
          dsimp only
          rw [hchild]
          dsimp only [Except.map]
          have hda : da.address =
              p.bech32v0 (litecoin.bech32.getD "") (hash160 p (p.serP node.pubKey)) := by
            rw [← hfr]
          rw [hda, hpubeq]
  case DOGE =>
    simp only [deriveXPubForChain, deriveXPubDOGE, Option.getD_some,
      Option.getD_none, Bool.false_eq_true, reduceCtorEq, if_false] at hx
    revert hx
    split
    · intro hx; exact Except.noConfusion hx
    · rename_i k heq
      intro hx
      have hxr := Except.ok.inj hx
      simp only [deriveAddressForChain, addressDOGE, buildPath, getNetwork, DEFAULT_PURPOSE,
        SLIP44, Option.getD_some, Option.getD_none, Bool.false_eq_true, reduceCtorEq,
        eq_self_iff_true, if_true, if_false] at hf
      revert hf
      split
      · intro hf; exact Except.noConfusion hf
      · rename_i node hD
        split
        · intro hf; exact Except.noConfusion hf
        · rename_i xp2 hXp
          intro hf
          have hfr := Except.ok.inj hf
          obtain ⟨m, child, hm, hchild, hpubeq⟩ :=
            watch_matches_full p seed [hardBase + 44, hardBase + 3, hardBase + a, ch] i 0 hiF
              bitcoinMainnet bitcoinMainnet dogecoin rfl k heq node hD
          have hxpub : xr.xpub = k := by rw [← hxr]
          rw [hxpub]
          simp only [deriveWatchOnlyAddress, deriveWatchOnlyDOGE, Bool.false_eq_true, if_false]
          rw [hm]
          dsimp only
          rw [hchild]
          dsimp only [Except.map]
          have hda : da.address =
              p.base58check dogecoin.pubKeyHash (hash160 p (p.serP node.pubKey)) := by
            rw [← hfr]
          rw [hda, hpubeq]
  case ETH =>
    simp only [deriveXPubForChain, deriveXPubETH, Option.getD_some,
      Option.getD_none, Bool.false_eq_true, reduceCtorEq, if_false] at hx
    revert hx
    split
    · intro hx; exact Except.noConfusion hx
    · rename_i k heq
      intro hx
      have hxr := Except.ok.inj hx
      simp only [deriveAddressForChain, addressETH, buildPath, DEFAULT_PURPOSE,
        SLIP44, Option.getD_some, Option.getD_none, Bool.false_eq_true, reduceCtorEq,
        eq_self_iff_true, if_true, if_false] at hf
      revert hf
      split
      · intro hf; exact Except.noConfusion hf
      · rename_i node hD
        split
        · intro hf; exact Except.noConfusion hf
        · rename_i xp2 hXp
          intro hf
          have hfr := Except.ok.inj hf
          obtain ⟨m, child, hm, hchild, hpubeq⟩ :=
            watch_matches_full p seed [hardBase + 44, hardBase + 60, hardBase + a, ch] i 0 hiF
              bitcoinMainnet bitcoinMainnet bitcoinMainnet rfl k heq node hD
          have hpriv := deriveNode_priv p seed _ _ node hD
          have hxpub : xr.xpub = k := by rw [← hxr]
          rw [hxpub]
          simp only [deriveWatchOnlyAddress, deriveWatchOnlyETH, Bool.false_eq_true, if_false]
          rw [hm]
          dsimp only
          rw [hchild]
          dsimp only [Except.map]
          have hda : da.address = walletAddressOfPriv p (node.privKey.getD 0) := by
            rw [← hfr]
          rw [hda, hpriv]
          dsimp only [Option.getD, walletAddressOfPriv]
          rw [hpubeq]
  case BSC =>
    simp only [deriveXPubForChain, deriveXPubBSC, Option.getD_some,
      Option.getD_none, Bool.false_eq_true, reduceCtorEq, if_false] at hx
    revert hx
    split
    · intro hx; exact Except.noConfusion hx
    · rename_i k heq
      intro hx
      have hxr := Except.ok.inj hx
      simp only [deriveAddressForChain, addressBSC, buildPath, DEFAULT_PURPOSE,
        SLIP44, Option.getD_some, Option.getD_none, Bool.false_eq_true, reduceCtorEq,
        eq_self_iff_true, if_true, if_false] at hf
      revert hf
      split
      · intro hf; exact Except.noConfusion hf
      · rename_i node hD
        split
        · intro hf; exact Except.noConfusion hf
        · rename_i xp2 hXp
          intro hf
          have hfr := Except.ok.inj hf
          obtain ⟨m, child, hm, hchild, hpubeq⟩ :=
            watch_matches_full p seed [hardBase + 44, hardBase + 60, hardBase + a, ch] i 0 hiF
              bitcoinMainnet bitcoinMainnet bitcoinMainnet rfl k heq node hD
          have hpriv := deriveNode_priv p seed _ _ node hD
          have hxpub : xr.xpub = k := by rw [← hxr]
          rw [hxpub]
          simp only [deriveWatchOnlyAddress, deriveWatchOnlyBSC, Bool.false_eq_true, if_false]
          rw [hm]
          dsimp only
          rw [hchild]
          dsimp only [Except.map]
          have hda : da.address = walletAddressOfPriv p (node.privKey.getD 0) := by
            rw [← hfr]
          rw [hda, hpriv]
          dsimp only [Option.getD, walletAddressOfPriv]
          rw [hpubeq]
  case TRX =>
    simp only [deriveXPubForChain, deriveXPubTRX, Option.getD_some,
      Option.getD_none, Bool.false_eq_true, reduceCtorEq, if_false] at hx
    revert hx
    split
    · intro hx; exact Except.noConfusion hx
    · rename_i k heq
      intro hx
      have hxr := Except.ok.inj hx
      simp only [deriveAddressForChain, addressTRX, buildPath, DEFAULT_PURPOSE,
        SLIP44, Option.getD_some, Option.getD_none, Bool.false_eq_true, reduceCtorEq,
        eq_self_iff_true, if_true, if_false] at hf
      revert hf
      split
      · intro hf; exact Except.noConfusion hf
      · rename_i node hD
        split
        · intro hf; exact Except.noConfusion hf
        · rename_i xp2 hXp
          intro hf
          have hfr := Except.ok.inj hf
          obtain ⟨m, child, hm, hchild, hpubeq⟩ :=
            watch_matches_full p seed [hardBase + 44, hardBase + 195, hardBase + a, ch] i 0 hiF
              bitcoinMainnet bitcoinMainnet bitcoinMainnet rfl k heq node hD
          have hpriv := deriveNode_priv p seed _ _ node hD
          have hxpub : xr.xpub = k := by rw [← hxr]
          rw [hxpub]
          simp only [deriveWatchOnlyAddress, deriveWatchOnlyTRX, Bool.false_eq_true, if_false]
          rw [hm]
          dsimp only
          rw [hchild]
          dsimp only [Except.map]
          have hda : da.address = tronFromPrivateKey p (node.privKey.getD 0) := by
            rw [← hfr]
          rw [hda, hpriv]
          dsimp only [Option.getD, tronFromPrivateKey]
          rw [hpubeq]
  case XRP =>
    simp only [deriveXPubForChain, deriveXPubXRP, Option.getD_some,
      Option.getD_none, Bool.false_eq_true, reduceCtorEq, if_false] at hx
    revert hx
    split
    · intro hx; exact Except.noConfusion hx
    · rename_i k heq
      intro hx
      have hxr := Except.ok.inj hx
      simp only [deriveAddressForChain, addressXRP, buildPath, DEFAULT_PURPOSE,
        SLIP44, Option.getD_some, Option.getD_none, Bool.false_eq_true, reduceCtorEq,
        eq_self_iff_true, if_true, if_false] at hf
      revert hf
      split
      · intro hf; exact Except.noConfusion hf
      · rename_i node hD
        split
        · intro hf; exact Except.noConfusion hf
        · rename_i xp2 hXp
          intro hf
          have hfr := Except.ok.inj hf
          obtain ⟨m, child, hm, hchild, hpubeq⟩ :=
            watch_matches_full p seed [hardBase + 44, hardBase + 144, hardBase + a, ch] i 0 hiF
              bitcoinMainnet bitcoinMainnet bitcoinMainnet rfl k heq node hD
          have hxpub : xr.xpub = k := by rw [← hxr]
          rw [hxpub]
          simp only [deriveWatchOnlyAddress, deriveWatchOnlyXRP, Bool.false_eq_true, if_false]
          rw [hm]
          dsimp only
          rw [hchild]
          dsimp only [Except.map]
          have hda : da.address = p.rippleB58 (hash160 p (p.serP node.pubKey)) := by
            rw [← hfr]
          rw [hda, hpubeq]

/-- Spec-side rendering of the default derivation path, following the
amended C5 claim: standard chains use the static purpose/coin table at
`m/purpose'/coin'/account'/change/index` (fields defaulting to 0);
Solana uses `m/44'/501'/(account+index)'` with no change/index segments. -/
def specPathOf (chain : Chain) (opts : DeriveOpts) : String :=
  let a := opts.account.getD 0
  let c := opts.change.getD 0
  let i := opts.index.getD 0
  match chain with
  | .BTC => "m/" ++ hseg 84 ++ "/" ++ hseg 0 ++ "/" ++ hseg a ++ "/" ++ Nat.repr c ++ "/" ++ Nat.repr i
  | .LTC => "m/" ++ hseg 84 ++ "/" ++ hseg 2 ++ "/" ++ hseg a ++ "/" ++ Nat.repr c ++ "/" ++ Nat.repr i
  | .DOGE => "m/" ++ hseg 44 ++ "/" ++ hseg 3 ++ "/" ++ hseg a ++ "/" ++ Nat.repr c ++ "/" ++ Nat.repr i
  | .ETH => "m/" ++ hseg 44 ++ "/" ++ hseg 60 ++ "/" ++ hseg a ++ "/" ++ Nat.repr c ++ "/" ++ Nat.repr i
  | .BSC => "m/" ++ hseg 44 ++ "/" ++ hseg 60 ++ "/" ++ hseg a ++ "/" ++ Nat.repr c ++ "/" ++ Nat.repr i
  | .TRX => "m/" ++ hseg 44 ++ "/" ++ hseg 195 ++ "/" ++ hseg a ++ "/" ++ Nat.repr c ++ "/" ++ Nat.repr i
  | .XRP => "m/" ++ hseg 44 ++ "/" ++ hseg 144 ++ "/" ++ hseg a ++ "/" ++ Nat.repr c ++ "/" ++ Nat.repr i
  | .SOL => "m/" ++ hseg 44 ++ "/" ++ hseg 501 ++ "/" ++ hseg (a + i)

/-- C5 (amended): without a customPath override, the reported path of a
DerivedAddress follows the static table rendering; for SOL the hardened
segment is `(account + index)'`, not `account'`. -/
theorem path_construction (p : Prim) (chain : Chain) (seed : List Nat) (opts : DeriveOpts)
    (hcp : opts.customPath = none) (da : DerivedAddress)
    (hf : deriveAddressForChain p chain seed opts = .ok da) :
    da.path = specPathOf chain opts := by
  cases chain <;>
    simp only [deriveAddressForChain, addressBTC, addressLTC, addressDOGE, addressETH,
      addressBSC, addressTRX, addressXRP, addressSOL, buildPath, hcp, DEFAULT_PURPOSE, SLIP44,
      Option.getD_none, eq_self_iff_true, if_true, reduceCtorEq, if_false,
      Bool.false_eq_true] at hf <;>
    revert hf
  case SOL =>
    split
    · intro hf; exact Except.noConfusion hf
    · intro hf
      have hfr := Except.ok.inj hf
      rw [← hfr]
      rfl
  all_goals
    split
    · intro hf; exact Except.noConfusion hf
    · split
      · intro hf; exact Except.noConfusion hf
      · intro hf
        have hfr := Except.ok.inj hf
        rw [← hfr]
        rfl

/-- C5 counterexample: with account 0 and index 1, the Solana path reported
by the code is the hardened segment 1' (account+index), not the claimed
account-level segment 0'. -/
theorem sol_path_counterexample :
    (deriveAddressForChain demoPrim .SOL demoSeed { account := some 0, index := some 1 }).map (·.path)
      = .ok (solPathText 1) ∧ solPathText 1 ≠ solPathText 0 := by
  constructor
  · rfl
  · decide

/-- A concrete default-options BTC derivation. -/
def demoDefaultBTC : DerivedAddress :=
  (deriveAddressForChain demoPrim .BTC demoSeed {}).toOption.getD
    { chain := .BTC, path := "", address := "" }

theorem path_construction_witness :
    demoDefaultBTC.path = specPathOf .BTC {} :=
  path_construction demoPrim .BTC demoSeed {} rfl demoDefaultBTC rfl

/-- C7 (amended): for every chain other than SOL, a non-empty customPath
override is used and reported verbatim as the result path, the
account/change/index options being ignored for path construction (an
empty override string is falsy in the JS truthiness guard and is treated
as absent); SOL ignores the override entirely. -/
theorem custom_path_verbatim (p : Prim) (chain : Chain) (hc : chain ≠ .SOL)
    (seed : List Nat) (opts : DeriveOpts) (s : String) (hcp : opts.customPath = some s)
    (hs : s ≠ "") (da : DerivedAddress)
    (hf : deriveAddressForChain p chain seed opts = .ok da) :
    da.path = s := by
  cases chain
  case SOL => exact absurd rfl hc
  all_goals
    simp only [deriveAddressForChain, addressBTC, addressLTC, addressDOGE, addressETH,
      addressBSC, addressTRX, addressXRP, buildPath, hcp, Option.getD_some, hs,
      if_false] at hf
    revert hf
    split
    · intro hf; exact Except.noConfusion hf
    · split
      · intro hf; exact Except.noConfusion hf
      · intro hf
        have hfr := Except.ok.inj hf
        rw [← hfr]

/-- C7 counterexample: for SOL the caller-supplied customPath override is
ignored — the reported path is the Trust-Wallet account path, not the
override string. -/
theorem custom_path_sol_counterexample :
    (deriveAddressForChain demoPrim .SOL demoSeed { customPath := some "m/0" }).map (·.path)
      = .ok (solPathText 0) ∧ solPathText 0 ≠ "m/0" := by
  constructor
  · rfl
  · decide

/-- A concrete ETH derivation under a customPath override. -/
def demoCustomETH : DerivedAddress :=
  (deriveAddressForChain demoPrim .ETH demoSeed { customPath := some "m/0" }).toOption.getD
    { chain := .ETH, path := "", address := "" }

theorem custom_path_verbatim_witness : demoCustomETH.path = "m/0" :=
  custom_path_verbatim demoPrim .ETH (by decide) demoSeed { customPath := some "m/0" } "m/0"
    rfl (by decide) demoCustomETH rfl

/-- C9 (amended): determinism/purity — the result of `deriveAddressForChain`
is a function of exactly the full explicit inputs (chain, seed, account,
change, index, customPath, testnet, regtest): two calls whose inputs agree
componentwise return byte-identical results; in particular repeated
identical calls yield byte-identical address and private-key export. -/
theorem determinism_full_inputs (p : Prim) (chain : Chain) (seed : List Nat)
    (o1 o2 : DeriveOpts) (h1 : o1.account = o2.account) (h2 : o1.change = o2.change)
    (h3 : o1.index = o2.index) (h4 : o1.customPath = o2.customPath)
    (h5 : o1.testnet = o2.testnet) (h6 : o1.regtest = o2.regtest) :
    deriveAddressForChain p chain seed o1 = deriveAddressForChain p chain seed o2 := by
  have ho : o1 = o2 := by
    cases o1
    cases o2
    congr 1
  rw [ho]

/-- C9 counterexample: two calls with identical (chain, seed, account,
change, index) — options defaulted — but different testnet flags return
different address strings, so the claimed 5-tuple does not determine the
result. -/
theorem determinism_counterexample :
    (deriveAddressForChain demoPrim .BTC demoSeed { testnet := true }).map (·.address) ≠
      (deriveAddressForChain demoPrim .BTC demoSeed {}).map (·.address) ∧
    ({ testnet := true } : DeriveOpts).account = ({} : DeriveOpts).account ∧
    ({ testnet := true } : DeriveOpts).change = ({} : DeriveOpts).change ∧
    ({ testnet := true } : DeriveOpts).index = ({} : DeriveOpts).index := by
  refine ⟨?_, rfl, rfl, rfl⟩
  decide

theorem determinism_witness :
    deriveAddressForChain demoPrim .BTC demoSeed { account := some 1 } =
      deriveAddressForChain demoPrim .BTC demoSeed { account := some 1 } :=
  determinism_full_inputs demoPrim .BTC demoSeed { account := some 1 } { account := some 1 }
    rfl rfl rfl rfl rfl rfl

/-- A concrete BTC extended-public-key export at account 0 / change 0. -/
def demoXpubBTC : XPubResult :=
  (deriveXPubForChain demoPrim .BTC demoSeed { account := some 0, change := some 0 }).toOption.getD
    { chain := .BTC, path := "", xpub := ⟨0, 0, 0, 0, 0, false, 0⟩, network := "" }

/-- The matching concrete full BTC derivation at account 0 / change 0 / index 0. -/
def demoAddrBTC : DerivedAddress :=
  (deriveAddressForChain demoPrim .BTC demoSeed
    { account := some 0, change := some 0, index := some 0 }).toOption.getD
    { chain := .BTC, path := "", address := "" }

theorem watch_only_equivalence_witness :
    (deriveWatchOnlyAddress demoPrim .BTC demoXpubBTC.xpub 0 0 false false).map (·.address)
      = .ok demoAddrBTC.address :=
  watch_only_equivalence demoPrim .BTC (by decide) demoSeed 0 0 0 (by decide) (by decide)
    demoXpubBTC rfl demoAddrBTC rfl

/-- A concrete ETH extended-public-key export. -/
def demoXpubETH : XPubResult :=
  (deriveXPubForChain demoPrim .ETH demoSeed { account := some 0, change := some 0 }).toOption.getD
    { chain := .ETH, path := "", xpub := ⟨0, 0, 0, 0, 0, false, 0⟩, network := "" }

theorem xpub_result_neutered_witness :
    demoXpubETH.xpub.keyIsPrivate = false ∧ ∃ n : ExtNode, demoXpubETH.xpub = toBase58 (neutered n) :=
  xpub_result_neutered demoPrim .ETH demoSeed { account := some 0, change := some 0 }
    demoXpubETH rfl

theorem solana_aliasing_witness :
    deriveAddressForChain demoPrim .SOL demoSeed { account := some 1, index := some 2 } =
      deriveAddressForChain demoPrim .SOL demoSeed { account := some 0, index := some 3 } :=
  (solana_aliasing demoPrim demoSeed 1 2 0 3 (by decide)).1

theorem seed_length_guard_witness :
    shortSeed.length < 16 ∧
    isInputError (deriveAddressForChain demoPrim .BTC shortSeed {}) = true :=
  ⟨by decide, seed_length_guard demoPrim .BTC shortSeed {} (by decide)⟩
